import Mathlib

/-!
Shallow embedding of the product/SKU consistency engine of the droplinked
product-management backend (the `ProductsService` in
`src/modules/products/products.service.ts`, together with its product/SKU
schemas, type guards and DTOs).

Modelling conventions:

* JavaScript strings are Lean `String`s.  The `localeCompare`-based comparator
  and the default `Array.prototype.sort()` string comparator are both modelled
  by the lexicographic order `≤` on `String`; `Array.prototype.sort` (stable
  per ES2019) is modelled by the stable `List.mergeSort`.
* A JS `Record<string, string>` / Mongoose `Map<string, string>` is modelled by
  its ordered list of entries (`List (String × String)`): `JSON.stringify`
  serialises the entries in insertion order and is injective on string-valued
  records, so `JSON.stringify`-equality of two such records is equality of
  their entry lists.
* Mongo ObjectIds are opaque identifiers, modelled as `Nat`.
* The JS numbers that occur here (price, quantity) are only stored, copied and
  compared with `> 0`, so they are modelled as `Int`.
* A possibly-`undefined` value is an `Option`.  A JS array is always truthy
  (including `[]`), so for array-valued parameters `!arr` is `Option.isNone`.
* Every service method wraps its body in `session.withTransaction`; an
  exception aborts and rolls back all writes of the block.  A method is hence
  a pure function `Db → Except ServiceError (Db × result)`, and its
  transactional run keeps the old `Db` whenever the result is `.error`.
-/

/-- `ProductType` enum (`'physical' | 'digital'`; both values are non-empty
strings, hence truthy). -/
inductive ProductType where
  | physical
  | digital
deriving DecidableEq, Repr

/-- `ProductStatus` enum (`'draft' | 'published'`; both values are non-empty
strings, hence truthy). -/
inductive ProductStatus where
  | draft
  | published
deriving DecidableEq, Repr

/-- One variant axis `{ name: string; values: string[] }`. -/
structure Variant where
  name : String
  values : List String
deriving DecidableEq, Repr

/-- A JS `Record<string, string>` (or Mongoose `Map<string, string>`) with its
insertion order. -/
abbrev Combo := List (String × String)

/-- JS assignment `rec[k] = v` on a record: overwrite in place when the key
already exists, append a new entry otherwise. -/
def recSet (rec : Combo) (k v : String) : Combo :=
  if (rec.lookup k).isSome then
    rec.map (fun p => if p.1 = k then (k, v) else p)
  else
    rec ++ [(k, v)]

/-- The recursive worker `generate(index, current)` inside
`ProductsService.generateVariantCombinations`, with the `index` into the axis
array expressed as structural recursion on the remaining axes.  The in-place
mutation of `current` in the source is observationally the functional update
`recSet`: every axis reassigns its key on every root-to-leaf path before the
leaf copies `{ ...current }`. -/
def generateWorker : List Variant → Combo → List Combo
  | [], current => [current]
  | v :: rest, current =>
    v.values.flatMap (fun value => generateWorker rest (recSet current v.name value))

/-- `ProductsService.generateVariantCombinations`. -/
def generateVariantCombinations (variants : List Variant) : List Combo :=
  if variants.length = 0 then [[]]
  else generateWorker variants []

/-- Lexicographic comparison of character lists by code point. -/
def charListLe : List Char → List Char → Bool
  | [], _ => true
  | _ :: _, [] => false
  | a :: as, b :: bs => if a < b then true else if b < a then false else charListLe as bs

/-- The string ordering used for both JS comparators appearing in
`hasVariantsChanged`: the default `Array.prototype.sort()` comparator
(code-unit comparison) and the `localeCompare`-based comparator, modelled as
code-point-lexicographic order. -/
def strLe (a b : String) : Bool := charListLe a.data b.data

/-- `{ ...variant, values: [...variant.values].sort() }` — the JS default sort
compares strings. -/
def sortValues (v : Variant) : Variant :=
  { v with values := v.values.mergeSort strLe }

/-- `[...variants].sort((a, b) => a.name.localeCompare(b.name))`. -/
def leName (a b : Variant) : Bool := strLe a.name b.name

/-- The axis sort of `hasVariantsChanged`. -/
def sortByName (l : List Variant) : List Variant :=
  l.mergeSort leName

/-- The `normalizedOld` / `normalizedNew` computation of
`ProductsService.hasVariantsChanged`: sort the axes by name, then sort the
values inside each axis. -/
def normalizeVariants (l : List Variant) : List Variant :=
  (sortByName l).map sortValues

/-- `ProductsService.hasVariantsChanged`.  The final
`JSON.stringify(normalizedOld) !== JSON.stringify(normalizedNew)` is structural
inequality of the normalized arrays (`JSON.stringify` is injective on them). -/
def hasVariantsChanged (oldVariants newVariants : Option (List Variant)) : Bool :=
  match oldVariants, newVariants with
  | none, none => false
  | none, some _ => true
  | some _, none => true
  | some o, some n =>
    if o.length ≠ n.length then true
    else decide (normalizeVariants o ≠ normalizeVariants n)

/-- Physical SKU dimensions (`width`, `height`, `length`, `weight`). -/
structure Dimensions where
  width : Int
  height : Int
  length : Int
  weight : Int
deriving DecidableEq, Repr

/-- A persisted SKU document (schema `SKU` in `schemas/sku.schema.ts`). -/
structure Sku where
  id : Nat
  productId : Nat
  variantCombination : Combo
  price : Int
  quantity : Int
  dimensions : Option Dimensions := none
deriving DecidableEq, Repr

/-- An element of the `skus` argument of `calculatePurchasable`: either a bare
ObjectId reference or a populated SKU document. -/
inductive SkuEntry where
  | ref (id : Nat)
  | doc (sku : Sku)
deriving DecidableEq, Repr

/-- `'quantity' in skus[0]`. -/
def SkuEntry.hasQuantity : SkuEntry → Bool
  | .ref _ => false
  | .doc _ => true

/-- `sku.quantity > 0` under the cast `(skus as (SKU | SkuDocument)[])`: on a
bare ObjectId the field read yields `undefined`, and `undefined > 0` is
`false`. -/
def SkuEntry.quantityPositive : SkuEntry → Bool
  | .ref _ => false
  | .doc s => decide (s.quantity > 0)

/-- `ProductsService.calculatePurchasable`.  Only `product.status` is read from
the product argument, so the model takes the status directly. -/
def calculatePurchasable (status : ProductStatus) (skus : Option (List SkuEntry)) : Bool :=
  if status ≠ .published then false
  else
    match skus with
    | none => false
    | some [] => false
    | some (first :: rest) =>
      if first.hasQuantity then (first :: rest).any SkuEntry.quantityPositive
      else false

/-- The embedded `shippingModel` object of a physical product. -/
structure ShippingModel where
  name : String
  description : Option String := none
  weight : Option Int := none
  dimensions : Option (Int × Int × Int) := none
deriving DecidableEq, Repr

/-- A collection document, reduced to what `validateCollectionExists` reads. -/
structure CollectionDoc where
  id : Nat
  isActive : Bool
deriving DecidableEq, Repr

/-- A persisted product document (schema `Product` in
`schemas/product.schema.ts`), with the schema defaults `variants: []`,
`skus: []`, `purchasable: false`. -/
structure ProductDoc where
  id : Nat
  userId : Nat
  title : String
  description : Option String := none
  type : ProductType
  status : ProductStatus
  collectionId : Option Nat := none
  shippingModel : Option ShippingModel := none
  fileUrl : Option String := none
  variants : List Variant := []
  skus : List Nat := []
  purchasable : Bool := false
deriving DecidableEq, Repr

/-- The persistent state threaded through a transaction: the three Mongo
collections plus a fresh-ObjectId supply for inserted documents. -/
structure Db where
  products : List ProductDoc
  skus : List Sku
  collections : List CollectionDoc
  nextId : Nat
deriving DecidableEq, Repr

/-- The NestJS exceptions thrown by the service. -/
inductive ServiceError where
  | badRequest (msg : String)
  | notFound (msg : String)
  | conflict (msg : String)
deriving DecidableEq, Repr

deriving instance DecidableEq for Except

/-- A `CreateProductDto` / `UpdateProductDto` / `ProductForValidation` value as
it exists at runtime: only the provided keys are set.  (`UpdateProductDto`
additionally carries the `skus` key, which `update` itself assigns.) -/
structure ProductDto where
  title : Option String := none
  description : Option String := none
  type : Option ProductType := none
  status : Option ProductStatus := none
  collectionId : Option Nat := none
  shippingModel : Option ShippingModel := none
  fileUrl : Option String := none
  variants : Option (List Variant) := none
  skus : Option (List Nat) := none
deriving DecidableEq, Repr

/-- JS falsiness of a possibly-absent string: `undefined` and `""` are falsy. -/
def strFalsy : Option String → Bool
  | none => true
  | some s => decide (s = "")

/-- `ProductsService.validatePhysicalProduct`. -/
def validatePhysicalProduct (p : ProductDto) : Except ServiceError Unit :=
  if p.shippingModel = none then
    .error (.badRequest "Physical products require shipping model")
  else .ok ()

/-- `ProductsService.validateDigitalProduct`. -/
def validateDigitalProduct (p : ProductDto) : Except ServiceError Unit :=
  if strFalsy p.fileUrl then
    .error (.badRequest "Digital products require file URL")
  else .ok ()

/-- `ProductsService.validatePublishedProduct` (the type guards
`isPhysicalProduct` / `isDigitalProduct` test `product.type`). -/
def validatePublishedProduct (p : ProductDto) : Except ServiceError Unit :=
  if strFalsy p.title || strFalsy p.description || p.collectionId = none then
    .error (.badRequest "Published products require title, description, and collection")
  else if p.type = some .physical then validatePhysicalProduct p
  else if p.type = some .digital then validateDigitalProduct p
  else .ok ()

/-- `ProductsService.validateProduct`.  In the draft branch the
`!product.status` disjunct is kept although it is unreachable there. -/
def validateProduct (p : ProductDto) : Except ServiceError Unit :=
  if p.status = some .draft then
    if strFalsy p.title || p.type = none || p.status = none then
      .error (.badRequest "Draft products require title, type, and status")
    else .ok ()
  else if p.status = some .published then
    validatePublishedProduct p
  else .ok ()

/-- `ProductsService.validateCollectionExists`.  (ObjectIds being opaque in the
model, the `Types.ObjectId.isValid` format check has no failing inputs.) -/
def validateCollectionExists (db : Db) (collectionId : Nat) :
    Except ServiceError Unit :=
  match db.collections.find? (fun c => c.id = collectionId) with
  | none => .error (.notFound "Collection not found")
  | some c =>
    if ¬ c.isActive then .error (.badRequest "Collection is not active")
    else .ok ()

/-- `ProductsService.generateSkus`: expand the combinations, fail on duplicate
serialized combinations (`new Set(...).size !== combinations.length`, i.e.
`¬ Nodup`), then `insertMany` one SKU per combination with price 0, quantity 0
and no dimensions. -/
def generateSkus (db : Db) (productId : Nat) (variants : List Variant) :
    Except ServiceError (Db × List Sku) :=
  if variants.length = 0 then .ok (db, [])
  else
    let combinations := generateVariantCombinations variants
    if ¬ combinations.Nodup then
      .error (.conflict "Duplicate variant combinations found")
    else
      let newSkus : List Sku := combinations.enum.map (fun p =>
        { id := db.nextId + p.1, productId := productId,
          variantCombination := p.2, price := 0, quantity := 0,
          dimensions := none })
      .ok ({ db with skus := db.skus ++ newSkus,
                     nextId := db.nextId + newSkus.length }, newSkus)

/-- The document built by `new this.productModel({ ...createProductDto,
userId, purchasable: false })`, with the schema defaults (`type`/`status`
enum defaults, `variants: []`, `skus: []`) and a fresh id. -/
def newProductDoc (db : Db) (dto : ProductDto) (userId : Nat) : ProductDoc := {
  id := db.nextId
  userId := userId
  title := dto.title.getD ""
  description := dto.description
  type := dto.type.getD .physical
  status := dto.status.getD .draft
  collectionId := dto.collectionId
  shippingModel := dto.shippingModel
  fileUrl := dto.fileUrl
  variants := dto.variants.getD []
  skus := []
  purchasable := false }

/-- The second half of `ProductsService.create`'s transaction body, after the
first `product.save()` has inserted `product` into `db1`: generate SKUs when
variants are provided (recomputing `purchasable` from the populated SKU
documents and saving again), then, for published products, re-fetch and
require at least one SKU. -/
def createSaved (db1 : Db) (product : ProductDoc) (dto : ProductDto) :
    Except ServiceError (Db × ProductDoc) := do
  let step ←
    match dto.variants with
    | some vs =>
      if vs.length > 0 then do
        let r ← generateSkus db1 product.id vs
        let saved : ProductDoc := { product with
          skus := r.2.map (fun s => s.id),
          purchasable := calculatePurchasable product.status
            (some (r.2.map SkuEntry.doc)) }
        let prods := r.1.products.map (fun q => if q.id = product.id then saved else q)
        pure ({ r.1 with products := prods }, saved)
      else pure (db1, product)
    | none => pure (db1, product)
  let db2 := step.1
  let saved := step.2
  if saved.status = .published then
    -- re-fetch of the document saved above; the `getD` branch is dead code
    let finalProduct :=
      (db2.products.find? (fun q => q.id = saved.id)).getD saved
    if finalProduct.skus.length = 0 then
      .error (.badRequest "Published products must have at least one SKU")
    else pure ()
  else pure ()
  pure (db2, saved)

/-- `ProductsService.create`.  Step order follows the source: validate, check
the collection, save the product with `purchasable: false` and the schema
defaults (the first save, inserting `newProductDoc`), then `createSaved`.
(Mongoose schema-level save validation is not modelled; no claim depends on
it.) -/
def create (db : Db) (dto : ProductDto) (userId : Nat) :
    Except ServiceError (Db × ProductDoc) := do
  validateProduct dto
  match dto.collectionId with
  | some cid => validateCollectionExists db cid
  | none => pure ()
  let product := newProductDoc db dto userId
  createSaved { db with products := db.products ++ [product],
                        nextId := db.nextId + 1 } product dto

/-- The merged candidate `{ ...product.toObject(), ...updateProductDto }`
passed to `validateProduct` by `update`: a key of the DTO overrides the
product's value exactly when the DTO provides it. -/
def mergeForValidation (product : ProductDoc) (dto : ProductDto) : ProductDto := {
  title := dto.title <|> some product.title
  description := dto.description <|> product.description
  type := dto.type <|> some product.type
  status := dto.status <|> some product.status
  collectionId := dto.collectionId <|> product.collectionId
  shippingModel := dto.shippingModel <|> product.shippingModel
  fileUrl := dto.fileUrl <|> product.fileUrl
  variants := dto.variants <|> some product.variants
  skus := dto.skus <|> some product.skus }

/-- `ProductsService.update`: load, ownership check, validate the merged
candidate, check a provided collection, compare variants with
`hasVariantsChanged` (regenerating SKUs when changed), `Object.assign` the DTO
onto the product, recompute `purchasable` — note the product was loaded
without `populate('skus')`, so `product.skus` are bare ObjectId references —
and save. -/
def update (db : Db) (id : Nat) (dto : ProductDto) (userId : Nat) :
    Except ServiceError (Db × ProductDoc) := do
  match db.products.find? (fun q => q.id = id) with
  | none => .error (.notFound "Product not found")
  | some product => do
    if product.userId ≠ userId then
      .error (.badRequest "You can only update your own products")
    else do
      validateProduct (mergeForValidation product dto)
      match dto.collectionId with
      | some cid => validateCollectionExists db cid
      | none => pure ()
      let variantsChanged := hasVariantsChanged (some product.variants) dto.variants
      let step ←
        if variantsChanged then
          let dbDel : Db :=
            { db with skus := db.skus.filter (fun s => ¬ s.productId = product.id) }
          match dto.variants with
          | some vs =>
            if vs.length > 0 then do
              let r ← generateSkus dbDel product.id vs
              pure (r.1, some (r.2.map (fun s => s.id)))
            else pure (dbDel, some ([] : List Nat))
          | none => pure (dbDel, some ([] : List Nat))
        else pure (db, dto.skus)
      let db1 := step.1
      let dtoSkus := step.2
      let assigned : ProductDoc := {
        id := product.id
        userId := product.userId
        title := dto.title.getD product.title
        description := dto.description <|> product.description
        type := dto.type.getD product.type
        status := dto.status.getD product.status
        collectionId := dto.collectionId <|> product.collectionId
        shippingModel := dto.shippingModel <|> product.shippingModel
        fileUrl := dto.fileUrl <|> product.fileUrl
        variants := dto.variants.getD product.variants
        skus := dtoSkus.getD product.skus
        purchasable := product.purchasable }
      let saved : ProductDoc := { assigned with
        purchasable := calculatePurchasable assigned.status
          (some (assigned.skus.map SkuEntry.ref)) }
      let db2 : Db := { db1 with
        products := db1.products.map (fun q => if q.id = id then saved else q) }
      pure (db2, saved)

/-- A single entry of `UpdateSkusDto.skus` (`UpdateSkuDto`): identified by its
variant combination, carrying the optionally provided new price/quantity. -/
structure SkuPatch where
  variantCombination : Combo
  price : Option Int := none
  quantity : Option Int := none
deriving DecidableEq, Repr

/-- `JSON.stringify` of one string (only quote and backslash escaping is
modelled; no input in this development contains control characters). -/
def jsonQuote (s : String) : String :=
  "\"" ++ String.join (s.toList.map (fun c =>
    if c = '\\' then "\\\\" else if c = '"' then "\\\"" else String.singleton c)) ++ "\""

/-- `JSON.stringify` of a string-record: the entries in insertion order. -/
def comboJson (c : Combo) : String :=
  "\x7b" ++ String.intercalate ","
    (c.map (fun p => jsonQuote p.1 ++ ":" ++ jsonQuote p.2)) ++ "\x7d"

/-- `Map.set` keyed by the serialized combination; since `JSON.stringify` is
injective on string-records, the key is modelled by the combination itself. -/
def mapSet (m : List (Combo × Sku)) (k : Combo) (v : Sku) : List (Combo × Sku) :=
  if (m.lookup k).isSome then m.map (fun p => if p.1 = k then (k, v) else p)
  else m ++ [(k, v)]

/-- The `currentSkuMap` of `updateSkus`: `forEach` over the populated SKUs,
`set`ting each under its serialized combination (a later SKU with the same
combination overwrites an earlier one). -/
def buildSkuMap (skus : List Sku) : List (Combo × Sku) :=
  skus.foldl (fun m sku => mapSet m sku.variantCombination sku) []

/-- The `updateData` written by one `findByIdAndUpdate`: overwrite exactly the
provided fields of the matched SKU, leaving every other field as it was. -/
def overwriteSku (t : Sku) (patch : SkuPatch) : Sku :=
  { t with price := patch.price.getD t.price,
           quantity := patch.quantity.getD t.quantity }

/-- One `skuModel.findByIdAndUpdate(existingSku._id, updateData)`: overwrite
exactly the provided fields of the document with that id.  (When neither field
is provided the source skips the call; the effect is the same.) -/
def applySkuUpdate (skus : List Sku) (targetId : Nat) (patch : SkuPatch) : List Sku :=
  skus.map (fun t => if t.id = targetId then overwriteSku t patch else t)

/-- The `for (const skuUpdate of updateSkusDto.skus)` loop of `updateSkus`:
look each patch up in the (fixed) `currentSkuMap`, failing on a miss, and apply
the provided fields to the SKU store. -/
def processPatches (skuMap : List (Combo × Sku)) :
    List Sku → List SkuPatch → Except ServiceError (List Sku)
  | skus, [] => .ok skus
  | skus, patch :: rest =>
    match skuMap.lookup patch.variantCombination with
    | none => .error (.badRequest
        ("SKU with variant combination " ++ comboJson patch.variantCombination ++
         " not found in product"))
    | some existingSku =>
      processPatches skuMap (applySkuUpdate skus existingSku.id patch) rest

/-- `ProductsService.updateSkus`: load with `populate('skus')` (unresolvable
references are dropped), ownership check, require a non-empty SKU list, build
the combination-keyed map, process the patches, then return the re-fetched
product — whose document, in particular its `purchasable` field, was never
written. -/
def updateSkus (db : Db) (productId : Nat) (patches : List SkuPatch) (userId : Nat) :
    Except ServiceError (Db × ProductDoc) := do
  match db.products.find? (fun q => q.id = productId) with
  | none => .error (.notFound "Product not found")
  | some product =>
    if product.userId ≠ userId then
      .error (.badRequest "You can only update your own products")
    else
      let currentSkus := product.skus.filterMap
        (fun sid => db.skus.find? (fun s => s.id = sid))
      if currentSkus.length = 0 then
        .error (.badRequest "Product has no SKUs to update")
      else do
        let newStore ← processPatches (buildSkuMap currentSkus) db.skus patches
        pure ({ db with skus := newStore }, product)

/-- The transactional run of `create`: `withTransaction` rolls every write
back when the block throws. -/
def runCreate (db : Db) (dto : ProductDto) (userId : Nat) : Db :=
  match create db dto userId with
  | .ok r => r.1
  | .error _ => db

/-- The transactional run of `update`. -/
def runUpdate (db : Db) (id : Nat) (dto : ProductDto) (userId : Nat) : Db :=
  match update db id dto userId with
  | .ok r => r.1
  | .error _ => db

/-- The transactional run of `updateSkus`. -/
def runUpdateSkus (db : Db) (productId : Nat) (patches : List SkuPatch)
    (userId : Nat) : Db :=
  match updateSkus db productId patches userId with
  | .ok r => r.1
  | .error _ => db

/-- Equality of two combinations as finite mappings (same value, or jointly no
value, under every key), irrespective of entry order — the reading of
"exact key/value mapping equality". -/
def MappingEq (a b : Combo) : Prop :=
  ∀ k, a.lookup k = b.lookup k

/-- Axis-wise reordering: same axis name, the values permuted. -/
def ValuesPerm (v w : Variant) : Prop :=
  v.name = w.name ∧ v.values.Perm w.values

/-- `A'` is obtained from `A` by permuting the values within any of the axes
and then permuting the axis list. -/
def VariantsPerm (A A' : List Variant) : Prop :=
  ∃ C, List.Forall₂ ValuesPerm A C ∧ C.Perm A'

theorem charListLe_total : ∀ as bs, charListLe as bs || charListLe bs as
  | [], _ => by simp [charListLe]
  | _ :: _, [] => by simp [charListLe]
  | a :: as, b :: bs => by
    by_cases hab : a < b
    · simp [charListLe, hab]
    · by_cases hba : b < a
      · simp [charListLe, hab, hba]
      · simpa [charListLe, hab, hba] using charListLe_total as bs

theorem charListLe_trans :
    ∀ as bs cs, charListLe as bs → charListLe bs cs → charListLe as cs
  | [], _, _ => by simp [charListLe]
  | a :: as, [], _ => by simp [charListLe]
  | a :: as, b :: bs, [] => by simp [charListLe]
  | a :: as, b :: bs, c :: cs => by
    intro h1 h2
    rcases lt_trichotomy a b with hab | hab | hab
    · rcases lt_trichotomy b c with hbc | hbc | hbc
      · simp [charListLe, lt_trans hab hbc]
      · subst hbc; simp [charListLe, hab]
      · simp [charListLe, hbc, lt_asymm hbc] at h2
    · subst hab
      rcases lt_trichotomy a c with hac | hac | hac
      · simp [charListLe, hac]
      · subst hac
        simp only [charListLe, lt_irrefl, if_false] at h1 h2 ⊢
        exact charListLe_trans as bs cs h1 h2
      · simp [charListLe, hac, lt_asymm hac] at h2
    · simp [charListLe, hab, lt_asymm hab] at h1

theorem charListLe_antisymm :
    ∀ as bs, charListLe as bs → charListLe bs as → as = bs
  | [], [] => by simp
  | [], _ :: _ => by simp [charListLe]
  | _ :: _, [] => by simp [charListLe]
  | a :: as, b :: bs => by
    intro h1 h2
    rcases lt_trichotomy a b with hab | hab | hab
    · simp [charListLe, hab, lt_asymm hab] at h2
    · subst hab
      simp only [charListLe, lt_irrefl, if_false] at h1 h2
      rw [charListLe_antisymm as bs h1 h2]
    · simp [charListLe, hab, lt_asymm hab] at h1

theorem strLe_trans (a b c : String) (h1 : strLe a b) (h2 : strLe b c) :
    strLe a c :=
  charListLe_trans a.data b.data c.data h1 h2

theorem strLe_total (a b : String) : strLe a b || strLe b a :=
  charListLe_total a.data b.data

theorem strLe_antisymm {a b : String} (h1 : strLe a b) (h2 : strLe b a) :
    a = b := by
  cases a; cases b
  exact congrArg String.mk (charListLe_antisymm _ _ h1 h2)

theorem leName_trans (a b c : Variant) (h1 : leName a b) (h2 : leName b c) :
    leName a c :=
  strLe_trans a.name b.name c.name h1 h2

theorem leName_total (a b : Variant) : leName a b || leName b a :=
  strLe_total a.name b.name

/-- Two lists that are permutations of each other, both sorted under a total
boolean relation that is antisymmetric, are equal. -/
theorem eq_of_perm_of_pairwiseLe {α : Type} (le : α → α → Bool)
    (anti : ∀ a b, le a b → le b a → a = b) :
    ∀ (l1 l2 : List α), l1.Perm l2 →
      l1.Pairwise (fun a b => le a b) → l2.Pairwise (fun a b => le a b) →
      l1 = l2
  | [], l2, p, _, _ => p.nil_eq
  | a :: t1, [], p, _, _ => absurd p.symm.nil_eq (by simp)
  | a :: t1, b :: t2, p, h1, h2 => by
    rcases List.pairwise_cons.mp h1 with ⟨ha, ht1⟩
    rcases List.pairwise_cons.mp h2 with ⟨hb, ht2⟩
    have hab : a = b := by
      rcases List.mem_cons.mp (p.subset (List.mem_cons_self a t1)) with h | hmem
      · exact h
      · rcases List.mem_cons.mp (p.symm.subset (List.mem_cons_self b t2)) with h | hmem2
        · exact h.symm
        · exact anti a b (ha b hmem2) (hb a hmem)
    subst hab
    rw [eq_of_perm_of_pairwiseLe le anti t1 t2 p.cons_inv ht1 ht2]

/-- As `eq_of_perm_of_pairwiseLe`, but with antisymmetry only up to a key
function, compensated by the keys of the list being pairwise distinct. -/
theorem eq_of_perm_of_pairwiseLe_key {α κ : Type} (le : α → α → Bool) (key : α → κ)
    (anti : ∀ a b, le a b → le b a → key a = key b) :
    ∀ (l1 l2 : List α), l1.Perm l2 → (l1.map key).Nodup →
      l1.Pairwise (fun a b => le a b) → l2.Pairwise (fun a b => le a b) →
      l1 = l2
  | [], l2, p, _, _, _ => p.nil_eq
  | a :: t1, [], p, _, _, _ => absurd p.symm.nil_eq (by simp)
  | a :: t1, b :: t2, p, nd, h1, h2 => by
    rcases List.pairwise_cons.mp h1 with ⟨ha, ht1⟩
    rcases List.pairwise_cons.mp h2 with ⟨hb, ht2⟩
    have hka : key a ∉ t1.map key := by
      have h := nd
      simp only [List.map_cons, List.nodup_cons] at h
      simpa using h.1
    have hnd : (t1.map key).Nodup := by
      have h := nd
      simp only [List.map_cons, List.nodup_cons] at h
      exact h.2
    have hab : a = b := by
      rcases List.mem_cons.mp (p.subset (List.mem_cons_self a t1)) with h | hmem
      · exact h
      · rcases List.mem_cons.mp (p.symm.subset (List.mem_cons_self b t2)) with h | hmem2
        · exact h.symm
        · have hk : key a = key b := anti a b (ha b hmem2) (hb a hmem)
          rw [hk] at hka
          exact absurd (List.mem_map_of_mem key hmem2) hka
    subst hab
    rw [eq_of_perm_of_pairwiseLe_key le key anti t1 t2 p.cons_inv
      (by simpa using hnd) ht1 ht2]

theorem sortValues_name (v : Variant) : (sortValues v).name = v.name := rfl

theorem sortValues_congr {v w : Variant} (h : ValuesPerm v w) :
    sortValues v = sortValues w := by
  rcases h with ⟨hn, hp⟩
  have hv : v.values.mergeSort strLe = w.values.mergeSort strLe :=
    eq_of_perm_of_pairwiseLe strLe (fun a b h1 h2 => strLe_antisymm h1 h2) _ _
      ((List.mergeSort_perm v.values strLe).trans
        (hp.trans (List.mergeSort_perm w.values strLe).symm))
      (List.sorted_mergeSort strLe_trans strLe_total v.values)
      (List.sorted_mergeSort strLe_trans strLe_total w.values)
  cases v; cases w
  simp_all [sortValues]

theorem map_sortValues_congr {A C : List Variant} (h : List.Forall₂ ValuesPerm A C) :
    A.map sortValues = C.map sortValues := by
  induction h with
  | nil => rfl
  | cons h1 _ ih => simp [sortValues_congr h1, ih]

theorem map_name_congr {A C : List Variant} (h : List.Forall₂ ValuesPerm A C) :
    A.map Variant.name = C.map Variant.name := by
  induction h with
  | nil => rfl
  | cons h1 _ ih => simp [h1.1, ih]

theorem normalizeVariants_eq_mergeSort_map (l : List Variant) :
    normalizeVariants l = (l.map sortValues).mergeSort leName := by
  unfold normalizeVariants sortByName
  exact List.map_mergeSort (fun a _ b _ => rfl)

theorem normalizeVariants_perm_eq {A A' : List Variant}
    (nd : (A.map Variant.name).Nodup) (h : VariantsPerm A A') :
    normalizeVariants A' = normalizeVariants A := by
  rcases h with ⟨C, hf, hp⟩
  have hmapeq : A.map sortValues = C.map sortValues := map_sortValues_congr hf
  have hperm : (A'.map sortValues).Perm (A.map sortValues) := by
    rw [hmapeq]
    exact (hp.symm).map sortValues
  have hname : ∀ l : List Variant, (l.map sortValues).map Variant.name = l.map Variant.name := by
    intro l
    rw [List.map_map]
    rfl
  rw [normalizeVariants_eq_mergeSort_map, normalizeVariants_eq_mergeSort_map]
  apply eq_of_perm_of_pairwiseLe_key leName Variant.name
    (fun a b h1 h2 => strLe_antisymm h1 h2)
  · exact ((List.mergeSort_perm (A'.map sortValues) leName).trans hperm).trans
      (List.mergeSort_perm (A.map sortValues) leName).symm
  · have hpn : (((A'.map sortValues).mergeSort leName).map Variant.name).Perm
        (A.map Variant.name) := by
      have := ((List.mergeSort_perm (A'.map sortValues) leName).trans hperm).map Variant.name
      rwa [hname A] at this
    exact hpn.symm.nodup nd
  · exact List.sorted_mergeSort leName_trans leName_total (A'.map sortValues)
  · exact List.sorted_mergeSort leName_trans leName_total (A.map sortValues)

theorem variantsPerm_length {A A' : List Variant} (h : VariantsPerm A A') :
    A.length = A'.length := by
  rcases h with ⟨C, hf, hp⟩
  rw [hf.length_eq, hp.length_eq]

theorem hasVariantsChanged_symm (o n : Option (List Variant)) :
    hasVariantsChanged o n = hasVariantsChanged n o := by
  cases o with
  | none => cases n <;> rfl
  | some a =>
    cases n with
    | none => rfl
    | some b =>
      simp only [hasVariantsChanged]
      by_cases h : a.length = b.length
      · rw [if_neg (by simp [h]), if_neg (by simp [h])]
        exact decide_eq_decide.mpr ⟨fun hx he => hx he.symm, fun hx he => hx he.symm⟩
      · rw [if_pos h, if_pos (Ne.symm h)]

theorem hasVariantsChanged_perm_left {A A' : List Variant}
    (nd : (A.map Variant.name).Nodup) (h : VariantsPerm A A')
    (B : Option (List Variant)) :
    hasVariantsChanged (some A') B = hasVariantsChanged (some A) B := by
  cases B with
  | none => rfl
  | some b =>
    simp only [hasVariantsChanged, ← variantsPerm_length h,
      normalizeVariants_perm_eq nd h]

theorem hasVariantsChanged_perm_false {A A' : List Variant}
    (nd : (A.map Variant.name).Nodup) (h : VariantsPerm A A') :
    hasVariantsChanged (some A') (some A) = false := by
  simp [hasVariantsChanged, ← variantsPerm_length h,
    normalizeVariants_perm_eq nd h]

unseal List.merge List.mergeSort in
/-- C3 counterexample: with a duplicated axis name, swapping the two axes of
`A = [x:[a], x:[b]]` yields a permutation `A'` of its axis list for which
`hasVariantsChanged(A', A)` is `true`, not `false` as the claim requires. -/
theorem C3_counterexample :
    VariantsPerm [⟨"x", ["a"]⟩, ⟨"x", ["b"]⟩] [⟨"x", ["b"]⟩, ⟨"x", ["a"]⟩] ∧
    hasVariantsChanged (some [⟨"x", ["b"]⟩, ⟨"x", ["a"]⟩])
      (some [⟨"x", ["a"]⟩, ⟨"x", ["b"]⟩]) = true :=
  ⟨⟨[⟨"x", ["a"]⟩, ⟨"x", ["b"]⟩],
    List.Forall₂.cons ⟨rfl, List.Perm.refl _⟩
      (List.Forall₂.cons ⟨rfl, List.Perm.refl _⟩ List.Forall₂.nil),
    List.Perm.swap _ _ _⟩,
   by decide⟩

/-- C3 (amended): `hasVariantsChanged` is symmetric and — provided the axis
names of `A` are pairwise distinct — permuting the axis list of `A` and/or the
values within any of its axes never changes the result against any `B`; in
particular comparing such a reordering with `A` itself reports no change. -/
theorem C3_hasVariantsChanged_symm_perm (A A' B : List Variant)
    (nd : (A.map Variant.name).Nodup) (h : VariantsPerm A A') :
    hasVariantsChanged (some A) (some B) = hasVariantsChanged (some B) (some A) ∧
    hasVariantsChanged (some A') (some B) = hasVariantsChanged (some A) (some B) ∧
    hasVariantsChanged (some A') (some A) = false :=
  ⟨hasVariantsChanged_symm _ _, hasVariantsChanged_perm_left nd h _,
   hasVariantsChanged_perm_false nd h⟩

unseal List.merge List.mergeSort in
theorem C3_hasVariantsChanged_symm_perm_witness :
    hasVariantsChanged (some [⟨"color", ["red", "blue"]⟩, ⟨"size", ["S", "M"]⟩])
        (some [⟨"size", ["M"]⟩]) =
      hasVariantsChanged (some [⟨"size", ["M"]⟩])
        (some [⟨"color", ["red", "blue"]⟩, ⟨"size", ["S", "M"]⟩]) ∧
    hasVariantsChanged (some [⟨"size", ["M", "S"]⟩, ⟨"color", ["blue", "red"]⟩])
        (some [⟨"size", ["M"]⟩]) =
      hasVariantsChanged (some [⟨"color", ["red", "blue"]⟩, ⟨"size", ["S", "M"]⟩])
        (some [⟨"size", ["M"]⟩]) ∧
    hasVariantsChanged (some [⟨"size", ["M", "S"]⟩, ⟨"color", ["blue", "red"]⟩])
      (some [⟨"color", ["red", "blue"]⟩, ⟨"size", ["S", "M"]⟩]) = false :=
  C3_hasVariantsChanged_symm_perm
    [⟨"color", ["red", "blue"]⟩, ⟨"size", ["S", "M"]⟩]
    [⟨"size", ["M", "S"]⟩, ⟨"color", ["blue", "red"]⟩]
    [⟨"size", ["M"]⟩]
    (by decide)
    ⟨[⟨"color", ["blue", "red"]⟩, ⟨"size", ["M", "S"]⟩],
     List.Forall₂.cons ⟨rfl, List.Perm.swap _ _ _⟩
       (List.Forall₂.cons ⟨rfl, List.Perm.swap _ _ _⟩ List.Forall₂.nil),
     List.Perm.swap _ _ _⟩

/-- A pre-state for exercising `update`: one product owned by user 7 with one
variant axis and one SKU (id 100, price 5, quantity 3). -/
def dbC2 : Db := {
  products := [{ id := 1, userId := 7, title := "Tee", type := .physical,
                 status := .draft, variants := [⟨"color", ["red"]⟩],
                 skus := [100] }]
  skus := [{ id := 100, productId := 1,
             variantCombination := [("color", "red")],
             price := 5, quantity := 3 }]
  collections := []
  nextId := 200 }

/-- An update patch that changes the title and omits `variants` entirely. -/
def dtoC2 : ProductDto := { title := some "Tee v2" }

/-- C2 counterexample: an `update` whose patch omits `variants` is treated as a
variant change (`hasVariantsChanged(variants, undefined) = true`), so the
product's SKU (id 100) is deleted and its SKU list emptied — not preserved as
the claim requires. -/
theorem C2_counterexample :
    dtoC2.variants = none ∧
    (dbC2.products.find? (fun q => q.id = 1)).map ProductDoc.skus = some [100] ∧
    dbC2.skus.length = 1 ∧
    (runUpdate dbC2 1 dtoC2 7).skus = [] ∧
    ((runUpdate dbC2 1 dtoC2 7).products.find? (fun q => q.id = 1)).map
      ProductDoc.skus = some [] := by
  decide

/-- C2 (amended): an `update` whose patch supplies a `variants` list that is a
reordering (of the axis list and/or of the values within axes) of the
product's current variants — the axis names being pairwise distinct — and
does not itself set `skus`, performs no SKU mutation: the SKU store is
untouched and the product keeps exactly its SKU ids (hence every SKU's price,
quantity and dimensions are exactly as before). -/
theorem C2_update_reordered_variants_preserves_skus
    (db : Db) (pid uid : Nat) (dto : ProductDto) (product : ProductDoc)
    (vs : List Variant)
    (hfind : db.products.find? (fun q => q.id = pid) = some product)
    (hskus : dto.skus = none)
    (hvars : dto.variants = some vs)
    (nd : (product.variants.map Variant.name).Nodup)
    (hperm : VariantsPerm product.variants vs) :
    (runUpdate db pid dto uid).skus = db.skus ∧
    (∀ db' p', update db pid dto uid = .ok (db', p') →
      db'.skus = db.skus ∧ p'.skus = product.skus) := by
  have hvc : hasVariantsChanged (some product.variants) dto.variants = false := by
    rw [hvars, hasVariantsChanged_symm]
    exact hasVariantsChanged_perm_false nd hperm
  have main : ∀ db' p', update db pid dto uid = .ok (db', p') →
      db'.skus = db.skus ∧ p'.skus = product.skus := by
    intro db' p' h
    unfold update at h
    by_cases hown : product.userId = uid
    · cases hval : validateProduct (mergeForValidation product dto) with
      | error e =>
        simp [hfind, hown, hval, Bind.bind, Except.bind] at h
      | ok u =>
        cases hc : dto.collectionId with
        | none =>
          simp only [hfind, hown, hval, hc, hvc, hskus, ne_eq,
            eq_self_iff_true, not_true_eq_false, if_false, Bind.bind,
            Except.bind, Pure.pure, Except.pure, Bool.false_eq_true, Option.getD_none,
            Except.ok.injEq, Prod.mk.injEq] at h
          obtain ⟨h1, h2⟩ := h
          subst h1; subst h2
          simp
        | some cid =>
          cases hcv : validateCollectionExists db cid with
          | error e =>
            simp [hfind, hown, hval, hc, hcv, Bind.bind, Except.bind] at h
          | ok u2 =>
            simp only [hfind, hown, hval, hc, hcv, hvc, hskus, ne_eq,
              eq_self_iff_true, not_true_eq_false, if_false, Bind.bind,
              Except.bind, Pure.pure, Except.pure, Bool.false_eq_true, Option.getD_none,
              Except.ok.injEq, Prod.mk.injEq] at h
            obtain ⟨h1, h2⟩ := h
            subst h1; subst h2
            simp
    · simp [hfind, hown, Bind.bind, Except.bind] at h
  refine ⟨?_, main⟩
  unfold runUpdate
  cases hu : update db pid dto uid with
  | error e => rfl
  | ok r => exact (main r.1 r.2 (by rw [hu])).1

/-- A pre-state for the C2 witness: two variant axes, two of the four SKUs
shown, owned by user 7. -/
def dbC2w : Db := {
  products := [{ id := 1, userId := 7, title := "Tee", type := .physical,
                 status := .draft,
                 variants := [⟨"color", ["red", "blue"]⟩, ⟨"size", ["S", "M"]⟩],
                 skus := [100, 101] }]
  skus := [{ id := 100, productId := 1,
             variantCombination := [("color", "red"), ("size", "S")],
             price := 5, quantity := 3 },
           { id := 101, productId := 1,
             variantCombination := [("color", "blue"), ("size", "M")],
             price := 6, quantity := 0 }]
  collections := []
  nextId := 200 }

/-- A patch whose `variants` merely reorder the axes and the values. -/
def dtoC2w : ProductDto := {
  title := some "Tee v2"
  variants := some [⟨"size", ["M", "S"]⟩, ⟨"color", ["blue", "red"]⟩] }

theorem C2_update_reordered_variants_preserves_skus_witness :
    (runUpdate dbC2w 1 dtoC2w 7).skus = dbC2w.skus :=
  (C2_update_reordered_variants_preserves_skus dbC2w 1 7 dtoC2w
    { id := 1, userId := 7, title := "Tee", type := .physical,
      status := .draft,
      variants := [⟨"color", ["red", "blue"]⟩, ⟨"size", ["S", "M"]⟩],
      skus := [100, 101] }
    [⟨"size", ["M", "S"]⟩, ⟨"color", ["blue", "red"]⟩]
    (by decide) rfl rfl (by decide)
    ⟨[⟨"color", ["blue", "red"]⟩, ⟨"size", ["M", "S"]⟩],
     List.Forall₂.cons ⟨rfl, List.Perm.swap _ _ _⟩
       (List.Forall₂.cons ⟨rfl, List.Perm.swap _ _ _⟩ List.Forall₂.nil),
     List.Perm.swap _ _ _⟩).1

/-- C5: `calculatePurchasable` returns false whenever the status is not
published; false for an absent or empty SKU list; false when the SKUs are bare
id references (no resolvable quantity); and for a published product with fully
populated SKU records, true iff at least one SKU has quantity > 0. -/
theorem C5_calculatePurchasable_spec (st : ProductStatus)
    (skus : Option (List SkuEntry)) (ids : List Nat) (docs : List Sku) :
    (st ≠ .published → calculatePurchasable st skus = false) ∧
    calculatePurchasable st none = false ∧
    calculatePurchasable st (some []) = false ∧
    calculatePurchasable st (some (ids.map SkuEntry.ref)) = false ∧
    (st = .published →
      (calculatePurchasable st (some (docs.map SkuEntry.doc)) = true ↔
        ∃ s ∈ docs, s.quantity > 0)) := by
  refine ⟨fun h => by simp [calculatePurchasable, h], ?_, ?_, ?_, fun h => ?_⟩
  · cases st <;> simp [calculatePurchasable]
  · cases st <;> simp [calculatePurchasable]
  · cases st <;> cases ids <;>
      simp [calculatePurchasable, SkuEntry.hasQuantity]
  · subst h
    cases docs with
    | nil => simp [calculatePurchasable]
    | cons d rest =>
      simp [calculatePurchasable, SkuEntry.hasQuantity, SkuEntry.quantityPositive,
        List.any_eq_true]

/-- Concrete SKUs for the C5 witness. -/
def skuQ0 : Sku := { id := 1, productId := 1, variantCombination := [], price := 0, quantity := 0 }

def skuQ5 : Sku := { id := 2, productId := 1, variantCombination := [], price := 0, quantity := 5 }

def skuQ9 : Sku := { id := 3, productId := 1, variantCombination := [], price := 0, quantity := 9 }

theorem C5_calculatePurchasable_spec_witness :
    (ProductStatus.draft ≠ .published →
      calculatePurchasable .draft (some [.doc skuQ9]) = false) ∧
    calculatePurchasable .draft none = false ∧
    calculatePurchasable .draft (some []) = false ∧
    calculatePurchasable .draft (some ([5, 6].map SkuEntry.ref)) = false ∧
    (ProductStatus.draft = .published →
      (calculatePurchasable .draft (some ([skuQ0, skuQ5].map SkuEntry.doc)) = true ↔
        ∃ s ∈ [skuQ0, skuQ5], s.quantity > 0)) :=
  C5_calculatePurchasable_spec .draft (some [.doc skuQ9]) [5, 6] [skuQ0, skuQ5]

/-- C9: for a candidate with draft status, validation fails (with the draft
error) exactly when the title or the type or the status is missing (the status
disjunct being vacuous for a draft), and no type-specific check is applied:
a draft physical product without a shipping model and a draft digital product
without a file URL both pass. -/
theorem C9_validateProduct_draft (p : ProductDto) (h : p.status = some .draft) :
    (validateProduct p = .ok () ↔
      ¬(strFalsy p.title = true ∨ p.type = none ∨ p.status = none)) ∧
    (validateProduct p =
        .error (.badRequest "Draft products require title, type, and status") ↔
      (strFalsy p.title = true ∨ p.type = none ∨ p.status = none)) ∧
    (p.type = some .physical → p.shippingModel = none →
      strFalsy p.title = false → validateProduct p = .ok ()) ∧
    (p.type = some .digital → strFalsy p.fileUrl = true →
      strFalsy p.title = false → validateProduct p = .ok ()) := by
  have hs : ¬(p.status = none) := by simp [h]
  unfold validateProduct
  rw [if_pos h]
  by_cases h1 : strFalsy p.title = true ∨ p.type = none
  · have hdisj : strFalsy p.title = true ∨ p.type = none ∨ p.status = none := by
      rcases h1 with h1 | h1
      · exact Or.inl h1
      · exact Or.inr (Or.inl h1)
    rw [if_pos (by rcases h1 with h1 | h1 <;> simp [h1])]
    refine ⟨?_, ?_, ?_, ?_⟩
    · exact iff_of_false (by simp) (not_not_intro hdisj)
    · exact iff_of_true rfl hdisj
    · intro ht _ htitle
      rcases h1 with h1 | h1
      · rw [htitle] at h1; cases h1
      · rw [ht] at h1; cases h1
    · intro ht _ htitle
      rcases h1 with h1 | h1
      · rw [htitle] at h1; cases h1
      · rw [ht] at h1; cases h1
  · push_neg at h1
    have ht : strFalsy p.title = false := by simpa using h1.1
    rw [if_neg (by
      simp only [Bool.or_eq_true, decide_eq_true_eq]
      rintro ((hx | hx) | hx)
      · exact h1.1 hx
      · exact h1.2 hx
      · exact hs hx)]
    refine ⟨?_, ?_, fun _ _ _ => rfl, fun _ _ _ => rfl⟩
    · exact iff_of_true rfl (by simp [ht, h1.2, hs])
    · exact iff_of_false (by simp) (by simp [ht, h1.2, hs])

/-- The candidate used in the C9 witness: a draft physical product with a
title but no shipping model (and no file URL). -/
def pC9 : ProductDto :=
  { title := some "Chair", type := some .physical, status := some .draft }

theorem C9_validateProduct_draft_witness :
    (validateProduct pC9 = .ok () ↔
      ¬(strFalsy pC9.title = true ∨ pC9.type = none ∨ pC9.status = none)) ∧
    (validateProduct pC9 =
        .error (.badRequest "Draft products require title, type, and status") ↔
      (strFalsy pC9.title = true ∨ pC9.type = none ∨ pC9.status = none)) ∧
    (pC9.type = some .physical → pC9.shippingModel = none →
      strFalsy pC9.title = false → validateProduct pC9 = .ok ()) ∧
    (pC9.type = some .digital → strFalsy pC9.fileUrl = true →
      strFalsy pC9.title = false → validateProduct pC9 = .ok ()) :=
  C9_validateProduct_draft pC9 rfl

/-- The cartesian expansion of the axes in input order: the shape
`generateVariantCombinations` produces when no axis name repeats (with a
repeated name, `recSet` overwrites instead of appending). -/
def cartesian : List Variant → List Combo
  | [] => [[]]
  | v :: rest =>
    v.values.flatMap (fun val => (cartesian rest).map (fun c => (v.name, val) :: c))

theorem recSet_eq_append {c : Combo} {k : String} (h : c.lookup k = none)
    (v : String) : recSet c k v = c ++ [(k, v)] := by
  simp [recSet, h]

theorem lookup_append_of_none {β : Type} {l1 l2 : List (String × β)} {k : String}
    (h : l1.lookup k = none) : (l1 ++ l2).lookup k = l2.lookup k := by
  induction l1 with
  | nil => rfl
  | cons p t ih =>
    rw [List.cons_append]
    rcases p with ⟨a, b⟩
    by_cases hk : k = a
    · subst hk
      simp [List.lookup] at h
    · have hbeq : (k == a) = false := by simpa using hk
      simp only [List.lookup, hbeq] at h ⊢
      exact ih h

theorem generateWorker_eq_cartesian :
    ∀ (vs : List Variant) (cur : Combo),
      (vs.map Variant.name).Nodup →
      (∀ n ∈ vs.map Variant.name, cur.lookup n = none) →
      generateWorker vs cur = (cartesian vs).map (fun c => cur ++ c)
  | [], cur, _, _ => by simp [generateWorker, cartesian]
  | v :: rest, cur, nd, hdisj => by
    have hvn : cur.lookup v.name = none := hdisj v.name (by simp)
    have hnmem : v.name ∉ rest.map Variant.name := by
      have h := nd
      simp only [List.map_cons, List.nodup_cons] at h
      exact h.1
    have hndrest : (rest.map Variant.name).Nodup := by
      have h := nd
      simp only [List.map_cons, List.nodup_cons] at h
      exact h.2
    simp only [generateWorker, cartesian, List.map_flatMap, List.map_map]
    apply List.flatMap_congr
    intro val _
    rw [recSet_eq_append hvn val]
    rw [generateWorker_eq_cartesian rest (cur ++ [(v.name, val)]) hndrest ?side]
    case side =>
      intro n hn
      have hne : ¬(n = v.name) := fun he => hnmem (he ▸ hn)
      have hbeq : (n == v.name) = false := by simpa using hne
      rw [lookup_append_of_none ?inner]
      · simp [List.lookup, hbeq]
      · exact hdisj n (by simp [hn])
    apply List.map_congr_left
    intro c _
    simp

theorem generateVariantCombinations_eq_cartesian (vs : List Variant)
    (nd : (vs.map Variant.name).Nodup) :
    generateVariantCombinations vs = cartesian vs := by
  unfold generateVariantCombinations
  cases vs with
  | nil => rfl
  | cons v rest =>
    rw [if_neg (by simp)]
    rw [generateWorker_eq_cartesian (v :: rest) [] nd (fun n _ => rfl)]
    simp

theorem sum_map_constNat {α : Type} (l : List α) (c : Nat) :
    (l.map (fun _ => c)).sum = l.length * c := by
  induction l with
  | nil => simp
  | cons a t ih => simp [ih, Nat.succ_mul, Nat.add_comm]

theorem cartesian_length (vs : List Variant) :
    (cartesian vs).length = (vs.map (fun v => v.values.length)).prod := by
  induction vs with
  | nil => rfl
  | cons v rest ih =>
    simp only [cartesian, List.length_flatMap, Function.comp_def,
      List.length_map, ih, List.map_cons, List.prod_cons]
    exact sum_map_constNat v.values _

theorem cartesian_shape :
    ∀ (vs : List Variant), ∀ c ∈ cartesian vs,
      List.Forall₂ (fun v p => p.1 = v.name ∧ p.2 ∈ v.values) vs c
  | [], c, hc => by
    simp only [cartesian, List.mem_singleton] at hc
    subst hc
    exact List.Forall₂.nil
  | v :: rest, c, hc => by
    simp only [cartesian, List.mem_flatMap, List.mem_map] at hc
    rcases hc with ⟨val, hval, c', hc', rfl⟩
    exact List.Forall₂.cons ⟨rfl, hval⟩ (cartesian_shape rest c' hc')

theorem cartesian_nodup :
    ∀ (vs : List Variant), (∀ v ∈ vs, v.values.Nodup) → (cartesian vs).Nodup
  | [], _ => by simp [cartesian]
  | v :: rest, h => by
    have ih : (cartesian rest).Nodup :=
      cartesian_nodup rest (fun w hw => h w (List.mem_cons_of_mem v hw))
    refine List.nodup_flatMap.2 ⟨?_, ?_⟩
    · intro val _
      exact ih.map (fun c1 c2 hcc => by injection hcc)
    · refine (h v (List.mem_cons_self v rest)).imp ?_
      intro v1 v2 hne c hc1 hc2
      simp only [Function.onFun, List.mem_map] at hc1 hc2
      rcases hc1 with ⟨c1, _, rfl⟩
      rcases hc2 with ⟨c2, _, he⟩
      injection he with he1 _
      exact hne (by injection he1 with _ h2; exact h2.symm)

/-- C4 counterexample: a single axis with a duplicated value yields the right
count but two equal combinations, contradicting "no two returned combinations
are equal". -/
theorem C4_counterexample :
    generateVariantCombinations [⟨"x", ["a", "a"]⟩] =
      [[("x", "a")], [("x", "a")]] ∧
    ¬ (generateVariantCombinations [⟨"x", ["a", "a"]⟩]).Nodup := by
  decide

/-- C4 (amended): for axes with pairwise-distinct names and duplicate-free
value lists, `generateVariantCombinations` returns exactly `n1 * ... * nk`
combinations (exactly `[{}]` for the empty axis list), each combination
pairing every axis name with one of that axis's values (in axis order), and
no two returned combinations are equal. -/
theorem C4_generateVariantCombinations_spec (vs : List Variant)
    (nd : (vs.map Variant.name).Nodup)
    (ndv : ∀ v ∈ vs, v.values.Nodup) :
    (generateVariantCombinations vs).length =
      (vs.map (fun v => v.values.length)).prod ∧
    generateVariantCombinations [] = [[]] ∧
    (∀ c ∈ generateVariantCombinations vs,
      List.Forall₂ (fun v p => p.1 = v.name ∧ p.2 ∈ v.values) vs c) ∧
    (generateVariantCombinations vs).Nodup := by
  rw [generateVariantCombinations_eq_cartesian vs nd]
  exact ⟨cartesian_length vs, rfl, cartesian_shape vs, cartesian_nodup vs ndv⟩

theorem C4_generateVariantCombinations_spec_witness :
    (generateVariantCombinations
        [⟨"color", ["red", "blue"]⟩, ⟨"size", ["S", "M"]⟩]).length =
      ([⟨"color", ["red", "blue"]⟩, (⟨"size", ["S", "M"]⟩ : Variant)].map
        (fun v => v.values.length)).prod ∧
    (generateVariantCombinations
      [⟨"color", ["red", "blue"]⟩, ⟨"size", ["S", "M"]⟩]).Nodup :=
  ⟨(C4_generateVariantCombinations_spec
      [⟨"color", ["red", "blue"]⟩, ⟨"size", ["S", "M"]⟩]
      (by decide) (by decide)).1,
   (C4_generateVariantCombinations_spec
      [⟨"color", ["red", "blue"]⟩, ⟨"size", ["S", "M"]⟩]
      (by decide) (by decide)).2.2.2⟩

theorem lookup_append_or {α β : Type} [BEq α] (m l2 : List (α × β)) (c : α) :
    (m ++ l2).lookup c = (m.lookup c).or (l2.lookup c) := by
  induction m with
  | nil => simp
  | cons p t ih =>
    rcases p with ⟨a, b⟩
    rw [List.cons_append]
    cases hba : c == a with
    | true => simp [List.lookup, hba]
    | false => simp [List.lookup, hba, ih]

theorem lookup_overwrite_ne (m : List (Combo × Sku)) (k : Combo) (v : Sku)
    {c : Combo} (h : ¬(c = k)) :
    (m.map (fun p => if p.1 = k then (k, v) else p)).lookup c = m.lookup c := by
  induction m with
  | nil => rfl
  | cons p t ih =>
    rcases p with ⟨a, b⟩
    simp only [List.map_cons]
    by_cases ha : a = k
    · subst ha
      rw [if_pos rfl]
      have hbeq : (c == a) = false := by simpa using h
      simp only [List.lookup, hbeq]
      exact ih
    · rw [if_neg (by simpa using ha)]
      simp only [List.lookup]
      cases hba : c == a with
      | true => rfl
      | false => exact ih

theorem lookup_overwrite_eq (m : List (Combo × Sku)) (k : Combo) (v : Sku)
    (h : (m.lookup k).isSome) :
    (m.map (fun p => if p.1 = k then (k, v) else p)).lookup k = some v := by
  induction m with
  | nil => simp [List.lookup] at h
  | cons p t ih =>
    rcases p with ⟨a, b⟩
    simp only [List.map_cons]
    by_cases ha : a = k
    · subst ha
      rw [if_pos rfl]
      simp [List.lookup]
    · rw [if_neg (by simpa using ha)]
      have hbeq : (k == a) = false := by simpa using fun he => ha he.symm
      simp only [List.lookup, hbeq] at h ⊢
      exact ih h

theorem mapSet_lookup (m : List (Combo × Sku)) (k : Combo) (v : Sku) (c : Combo) :
    (mapSet m k v).lookup c = if c = k then some v else m.lookup c := by
  by_cases hc : c = k
  · subst hc
    rw [if_pos rfl]
    unfold mapSet
    by_cases hs : (m.lookup c).isSome
    · rw [if_pos hs]
      exact lookup_overwrite_eq m c v hs
    · rw [if_neg hs, lookup_append_or]
      rw [Option.not_isSome_iff_eq_none] at hs
      simp [hs, List.lookup]
  · rw [if_neg hc]
    unfold mapSet
    by_cases hs : (m.lookup k).isSome
    · rw [if_pos hs]
      exact lookup_overwrite_ne m k v hc
    · rw [if_neg hs, lookup_append_or]
      have hbeq : (c == k) = false := by simpa using hc
      simp [List.lookup, hbeq]

theorem buildSkuMap_fold_lookup :
    ∀ (skus : List Sku) (m : List (Combo × Sku)) (c : Combo),
      ((skus.foldl (fun m sku => mapSet m sku.variantCombination sku) m).lookup c)
        = (skus.reverse.find? (fun t => c == t.variantCombination)).or (m.lookup c)
  | [], m, c => by simp
  | t :: rest, m, c => by
    rw [List.foldl_cons, buildSkuMap_fold_lookup rest _ c, mapSet_lookup,
      List.reverse_cons, List.find?_append]
    cases hr : rest.reverse.find? (fun t => c == t.variantCombination) with
    | some s => simp
    | none =>
      by_cases hc : c = t.variantCombination
      · simp [List.find?, hc]
      · have hbeq : (c == t.variantCombination) = false := by simpa using hc
        simp [List.find?, hbeq, hc]

/-- The map is keyed by serialized combination; an overwriting `set` makes the
last SKU with a given combination win, i.e. lookup finds the last match. -/
theorem buildSkuMap_lookup (skus : List Sku) (c : Combo) :
    (buildSkuMap skus).lookup c
      = skus.reverse.find? (fun t => c == t.variantCombination) := by
  unfold buildSkuMap
  rw [buildSkuMap_fold_lookup skus [] c]
  simp [List.lookup]

theorem buildSkuMap_lookup_none (skus : List Sku) (c : Combo)
    (h : ∀ t ∈ skus, t.variantCombination ≠ c) :
    (buildSkuMap skus).lookup c = none := by
  rw [buildSkuMap_lookup]
  rw [List.find?_eq_none]
  intro t ht
  have := h t (List.mem_reverse.mp ht)
  simpa using fun he => this he.symm

theorem buildSkuMap_lookup_isSome (skus : List Sku) (c : Combo)
    (h : ∃ t ∈ skus, t.variantCombination = c) :
    ((buildSkuMap skus).lookup c).isSome := by
  rw [buildSkuMap_lookup, List.find?_isSome]
  rcases h with ⟨t, ht, hc⟩
  exact ⟨t, List.mem_reverse.mpr ht, by simp [hc]⟩

/-- The loop of `updateSkus` fails at the first patch whose combination is
absent from the map, naming that combination; the earlier (matching) patches
do not change that. -/
theorem processPatches_error (skuMap : List (Combo × Sku)) :
    ∀ (pre : List SkuPatch) (bad : SkuPatch) (rest : List SkuPatch)
      (skus : List Sku),
      (∀ u ∈ pre, ((skuMap.lookup u.variantCombination).isSome : Prop)) →
      skuMap.lookup bad.variantCombination = none →
      processPatches skuMap skus (pre ++ bad :: rest) =
        .error (.badRequest ("SKU with variant combination " ++
          comboJson bad.variantCombination ++ " not found in product"))
  | [], bad, rest, skus, _, hbad => by
    simp only [List.nil_append, processPatches, hbad]
  | u :: pre, bad, rest, skus, hpre, hbad => by
    have hu := hpre u (List.mem_cons_self u pre)
    rcases Option.isSome_iff_exists.mp hu with ⟨s, hs⟩
    rw [List.cons_append]
    simp only [processPatches, hs]
    exact processPatches_error skuMap pre bad rest _
      (fun w hw => hpre w (List.mem_cons_of_mem u hw)) hbad

/-- One patch step as it acts on a single stored SKU document. -/
def stepPatch (skuMap : List (Combo × Sku)) (t : Sku) (u : SkuPatch) : Sku :=
  match skuMap.lookup u.variantCombination with
  | some s => if t.id = s.id then overwriteSku t u else t
  | none => t

/-- When every patch matches, the loop succeeds and the store is mapped
element-wise through the patch steps. -/
theorem processPatches_ok (skuMap : List (Combo × Sku)) :
    ∀ (patches : List SkuPatch) (skus : List Sku),
      (∀ u ∈ patches, ((skuMap.lookup u.variantCombination).isSome : Prop)) →
      processPatches skuMap skus patches =
        .ok (skus.map (fun t => patches.foldl (stepPatch skuMap) t))
  | [], skus, _ => by simp [processPatches]
  | u :: patches, skus, hall => by
    have hu := hall u (List.mem_cons_self u patches)
    rcases Option.isSome_iff_exists.mp hu with ⟨s, hs⟩
    simp only [processPatches, hs]
    rw [processPatches_ok skuMap patches _
      (fun w hw => hall w (List.mem_cons_of_mem u hw))]
    congr 1
    unfold applySkuUpdate
    rw [List.map_map]
    apply List.map_congr_left
    intro t _
    simp only [Function.comp, List.foldl_cons, stepPatch, hs]

/-- The pre-state of the spec's `updateSkus` example: a product with the SKUs
`{color:red, size:S}` and `{color:blue, size:M}`. -/
def dbC6 : Db := {
  products := [{ id := 1, userId := 7, title := "Shirt", type := .physical,
                 status := .draft,
                 variants := [⟨"color", ["red", "blue"]⟩, ⟨"size", ["S", "M"]⟩],
                 skus := [100, 101] }]
  skus := [{ id := 100, productId := 1,
             variantCombination := [("color", "red"), ("size", "S")],
             price := 10, quantity := 1 },
           { id := 101, productId := 1,
             variantCombination := [("color", "blue"), ("size", "M")],
             price := 20, quantity := 2 }]
  collections := []
  nextId := 300 }

/-- A patch targeting the unmatched combination `{color:green, size:XL}`. -/
def patchC6 : SkuPatch :=
  { variantCombination := [("color", "green"), ("size", "XL")], price := some 99 }

/-- C6 counterexample: the unmatched-combination failure of `updateSkus` is a
`BadRequestException` (a validation-type error), not a `ConflictException` as
the claim states; the message does name the combination, and no SKU is
modified. -/
theorem C6_counterexample :
    updateSkus dbC6 1 [patchC6] 7 = .error (.badRequest
      "SKU with variant combination \x7b\"color\":\"green\",\"size\":\"XL\"\x7d not found in product") ∧
    runUpdateSkus dbC6 1 [patchC6] 7 = dbC6 := by
  decide

/-- C6 (amended): when `updateSkus` reaches a patch whose combination matches
no SKU of the product (all earlier patches matching), the whole operation
fails with a `BadRequestException` naming the unmatched combination, and no
patch of the batch is applied: the state is exactly the pre-state. -/
theorem C6_updateSkus_unmatched (db : Db) (pid uid : Nat) (product : ProductDoc)
    (cs : List Sku) (pre : List SkuPatch) (bad : SkuPatch) (rest : List SkuPatch)
    (hfind : db.products.find? (fun q => q.id = pid) = some product)
    (hown : product.userId = uid)
    (hcur : cs = product.skus.filterMap
      (fun sid => db.skus.find? (fun s => s.id = sid)))
    (hne : cs ≠ [])
    (hpre : ∀ u ∈ pre, ∃ t ∈ cs, t.variantCombination = u.variantCombination)
    (hbad : ∀ t ∈ cs, t.variantCombination ≠ bad.variantCombination) :
    updateSkus db pid (pre ++ bad :: rest) uid =
      .error (.badRequest ("SKU with variant combination " ++
        comboJson bad.variantCombination ++ " not found in product")) ∧
    runUpdateSkus db pid (pre ++ bad :: rest) uid = db := by
  have herr : updateSkus db pid (pre ++ bad :: rest) uid =
      .error (.badRequest ("SKU with variant combination " ++
        comboJson bad.variantCombination ++ " not found in product")) := by
    unfold updateSkus
    simp only [hfind]
    rw [if_neg (by simp [hown])]
    rw [← hcur]
    rw [if_neg (by simpa using hne)]
    rw [processPatches_error (buildSkuMap cs) pre bad rest db.skus
      (fun u hu => buildSkuMap_lookup_isSome cs u.variantCombination
        (by rcases hpre u hu with ⟨t, ht, he⟩; exact ⟨t, ht, he⟩))
      (buildSkuMap_lookup_none cs bad.variantCombination hbad)]
    rfl
  refine ⟨herr, ?_⟩
  unfold runUpdateSkus
  rw [herr]

theorem C6_updateSkus_unmatched_witness :
    updateSkus dbC6 1 [patchC6] 7 =
      .error (.badRequest ("SKU with variant combination " ++
        comboJson patchC6.variantCombination ++ " not found in product")) ∧
    runUpdateSkus dbC6 1 [patchC6] 7 = dbC6 :=
  C6_updateSkus_unmatched dbC6 1 7
    { id := 1, userId := 7, title := "Shirt", type := .physical,
      status := .draft,
      variants := [⟨"color", ["red", "blue"]⟩, ⟨"size", ["S", "M"]⟩],
      skus := [100, 101] }
    [{ id := 100, productId := 1,
       variantCombination := [("color", "red"), ("size", "S")],
       price := 10, quantity := 1 },
     { id := 101, productId := 1,
       variantCombination := [("color", "blue"), ("size", "M")],
       price := 20, quantity := 2 }]
    [] patchC6 []
    (by decide) rfl (by decide) (by decide)
    (by intro u hu; cases hu)
    (by decide)

/-- C8: a successful `updateSkus` writes only SKU documents; the products
store — in particular every product's persisted `purchasable` flag — is
exactly as before the call, whatever quantities the patches wrote. -/
theorem C8_updateSkus_preserves_purchasable (db : Db) (pid : Nat)
    (patches : List SkuPatch) (uid : Nat) (db' : Db) (p : ProductDoc)
    (h : updateSkus db pid patches uid = .ok (db', p)) :
    db'.products = db.products ∧
    (db'.products.find? (fun q => q.id = pid)).map ProductDoc.purchasable =
      (db.products.find? (fun q => q.id = pid)).map ProductDoc.purchasable := by
  have hprod : db'.products = db.products := by
    unfold updateSkus at h
    cases hf : db.products.find? (fun q => q.id = pid) with
    | none => simp [hf] at h
    | some product =>
      simp only [hf] at h
      by_cases hown : product.userId = uid
      · rw [if_neg (by simp [hown])] at h
        set cs := product.skus.filterMap
          (fun sid => db.skus.find? (fun s => s.id = sid)) with hcs
        by_cases hlen : cs.length = 0
        · rw [if_pos hlen] at h
          exact absurd h (by simp)
        · rw [if_neg hlen] at h
          cases hp : processPatches (buildSkuMap cs) db.skus patches with
          | error e =>
            rw [hp] at h
            exact absurd h (by simp [Bind.bind, Except.bind])
          | ok newStore =>
            rw [hp] at h
            simp only [Bind.bind, Except.bind, Pure.pure, Except.pure,
              Except.ok.injEq, Prod.mk.injEq] at h
            rw [← h.1]
      · rw [if_pos (by simp [hown])] at h
        exact absurd h (by simp)
  exact ⟨hprod, by rw [hprod]⟩

/-- The stored product document of `dbC6`. -/
def prodC6 : ProductDoc :=
  { id := 1, userId := 7, title := "Shirt", type := .physical,
    status := .draft,
    variants := [⟨"color", ["red", "blue"]⟩, ⟨"size", ["S", "M"]⟩],
    skus := [100, 101] }

/-- `dbC6` after `updateSkus` writes quantity 50 to the `{color:red, size:S}`
SKU. -/
def dbC8after : Db := { dbC6 with skus :=
  [{ id := 100, productId := 1,
     variantCombination := [("color", "red"), ("size", "S")],
     price := 10, quantity := 50 },
   { id := 101, productId := 1,
     variantCombination := [("color", "blue"), ("size", "M")],
     price := 20, quantity := 2 }] }

theorem C8_updateSkus_preserves_purchasable_witness :
    dbC8after.products = dbC6.products ∧
    (dbC8after.products.find? (fun q => q.id = 1)).map ProductDoc.purchasable =
      (dbC6.products.find? (fun q => q.id = 1)).map ProductDoc.purchasable :=
  C8_updateSkus_preserves_purchasable dbC6 1
    [{ variantCombination := [("color", "red"), ("size", "S")],
       quantity := some 50 }] 7 dbC8after prodC6 (by decide)

/-- A published product exactly as `create` persists it: one SKU generated
with quantity 0, so `purchasable` is false. -/
def dbC1 : Db := {
  products := [{ id := 1, userId := 7, title := "Album",
                 description := some "D", type := .digital,
                 fileUrl := some "file://a", status := .published,
                 collectionId := some 9, variants := [⟨"color", ["red"]⟩],
                 skus := [100], purchasable := false }]
  skus := [{ id := 100, productId := 1,
             variantCombination := [("color", "red")],
             price := 0, quantity := 0 }]
  collections := [⟨9, true⟩]
  nextId := 200 }

/-- The `updateSkus` patch restocking the single SKU. -/
def patchC1 : SkuPatch :=
  { variantCombination := [("color", "red")], quantity := some 5 }

/-- `dbC1` after the restock: SKU quantity 5, product untouched. -/
def dbC1after : Db := { dbC1 with skus :=
  [{ id := 100, productId := 1, variantCombination := [("color", "red")],
     price := 0, quantity := 5 }] }

/-- The product document of `dbC1`. -/
def prodC1 : ProductDoc :=
  { id := 1, userId := 7, title := "Album", description := some "D",
    type := .digital, fileUrl := some "file://a", status := .published,
    collectionId := some 9, variants := [⟨"color", ["red"]⟩],
    skus := [100], purchasable := false }

/-- C1 failing input: after a successful `updateSkus` that sets the quantity
of the only SKU of a published product to 5, the persisted `purchasable` is
still `false`, although the invariant demands `true` (status is published and
a referenced SKU has quantity > 0).  `updateSkus` never recomputes the flag
(and `update` recomputes it from bare ObjectId references, which
`calculatePurchasable` conservatively maps to `false`). -/
theorem C1_purchasable_invariant_violated :
    updateSkus dbC1 1 [patchC1] 7 = .ok (dbC1after, prodC1) ∧
    prodC1.status = .published ∧
    (dbC1after.products.find? (fun q => q.id = 1)).map ProductDoc.purchasable =
      some false ∧
    (∃ sid ∈ prodC1.skus, ∃ s ∈ dbC1after.skus, s.id = sid ∧ s.quantity > 0) := by
  decide

theorem find?_map_replace (pid : Nat) (saved : ProductDoc)
    (hsid : saved.id = pid) :
    ∀ (l : List ProductDoc), (∃ q ∈ l, q.id = pid) →
      (l.map (fun q => if q.id = pid then saved else q)).find?
        (fun q => q.id = pid) = some saved
  | [], hex => by simp at hex
  | q :: t, hex => by
    by_cases hq : q.id = pid
    · simp only [List.map_cons, if_pos hq, List.find?]
      have : (decide (saved.id = pid)) = true := by simp [hsid]
      rw [this]
    · simp only [List.map_cons, if_neg hq, List.find?]
      have : (decide (q.id = pid)) = false := by simpa using hq
      rw [this]
      apply find?_map_replace pid saved hsid t
      rcases hex with ⟨w, hw, hwid⟩
      rcases List.mem_cons.mp hw with rfl | hwt
      · exact absurd hwid hq
      · exact ⟨w, hwt, hwid⟩

theorem find?_append_singleton (pid : Nat) (p : ProductDoc) (hp : p.id = pid)
    (l : List ProductDoc) (h : ∀ q ∈ l, q.id ≠ pid) :
    (l ++ [p]).find? (fun q => q.id = pid) = some p := by
  rw [List.find?_append]
  have hnone : l.find? (fun q => decide (q.id = pid)) = none := by
    rw [List.find?_eq_none]
    intro q hq
    simpa using h q hq
  rw [hnone]
  simp [List.find?, hp]

theorem generateSkus_ok_products {d : Db} {pid : Nat} {vs : List Variant}
    {r : Db × List Sku} (h : generateSkus d pid vs = .ok r) :
    r.1.products = d.products := by
  unfold generateSkus at h
  by_cases h1 : vs.length = 0
  · simp only [if_pos h1, Except.ok.injEq] at h
    rw [← h]
  · simp only [if_neg h1] at h
    by_cases h2 : (generateVariantCombinations vs).Nodup
    · simp only [h2, not_true_eq_false, if_false, Except.ok.injEq] at h
      rw [← h]
    · simp only [h2, not_false_eq_true, if_true] at h
      cases h

/-- The post-save half of `create` only returns a published product when the
re-fetch finds at least one SKU on it. -/
theorem createSaved_published (db1 : Db) (product : ProductDoc) (dto : ProductDto)
    (hfind1 : db1.products.find? (fun q => q.id = product.id) = some product) :
    ∀ db' p, createSaved db1 product dto = .ok (db', p) → p.status = .published →
      1 ≤ p.skus.length ∧ p ∈ db'.products := by
  intro db' p h hp
  unfold createSaved at h
  have hmem1 : product ∈ db1.products := List.mem_of_find?_eq_some hfind1
  cases hv : dto.variants with
  | none =>
    simp only [hv, Bind.bind, Except.bind, Pure.pure, Except.pure] at h
    by_cases hps : product.status = .published
    · rw [if_pos hps, hfind1] at h
      simp only [Option.getD_some] at h
      by_cases hlen : product.skus.length = 0
      · rw [if_pos hlen] at h
        cases h
      · rw [if_neg hlen] at h
        simp only [Except.ok.injEq, Prod.mk.injEq] at h
        obtain ⟨rfl, rfl⟩ := h.symm
        exact ⟨Nat.one_le_iff_ne_zero.mpr hlen, hmem1⟩
    · rw [if_neg hps] at h
      simp only [Except.ok.injEq, Prod.mk.injEq] at h
      obtain ⟨rfl, rfl⟩ := h.symm
      exact absurd hp hps
  | some vs =>
    simp only [hv, Bind.bind, Except.bind, Pure.pure, Except.pure] at h
    by_cases hvl : vs.length > 0
    · rw [if_pos hvl] at h
      cases hg : generateSkus db1 product.id vs with
      | error e => rw [hg] at h; cases h
      | ok r =>
        rw [hg] at h
        simp only [Pure.pure, Except.pure] at h
        by_cases hps : product.status = .published
        · rw [if_pos hps] at h
          rw [show r.1.products = db1.products from generateSkus_ok_products hg] at h
          rw [find?_map_replace product.id { product with skus := r.2.map (fun s => s.id), purchasable := calculatePurchasable product.status (some (r.2.map SkuEntry.doc)) } rfl db1.products ⟨product, hmem1, rfl⟩] at h
          simp only [Option.getD_some] at h
          by_cases hlen : (r.2.map (fun s => s.id)).length = 0
          · rw [if_pos hlen] at h
            cases h
          · rw [if_neg hlen] at h
            simp only [Except.ok.injEq, Prod.mk.injEq] at h
            obtain ⟨rfl, rfl⟩ := h.symm
            refine ⟨Nat.one_le_iff_ne_zero.mpr hlen, ?_⟩
            exact List.mem_map.mpr ⟨product, hmem1, by simp⟩
        · rw [if_neg hps] at h
          simp only [Except.ok.injEq, Prod.mk.injEq] at h
          obtain ⟨rfl, rfl⟩ := h.symm
          exact absurd hp hps
    · rw [if_neg hvl] at h
      by_cases hps : product.status = .published
      · rw [if_pos hps, hfind1] at h
        simp only [Option.getD_some] at h
        by_cases hlen : product.skus.length = 0
        · rw [if_pos hlen] at h
          cases h
        · rw [if_neg hlen] at h
          simp only [Except.ok.injEq, Prod.mk.injEq] at h
          obtain ⟨rfl, rfl⟩ := h.symm
          exact ⟨Nat.one_le_iff_ne_zero.mpr hlen, hmem1⟩
      · rw [if_neg hps] at h
        simp only [Except.ok.injEq, Prod.mk.injEq] at h
        obtain ⟨rfl, rfl⟩ := h.symm
        exact absurd hp hps

/-- C10: `create` never persists a published product without a SKU: a
successful `create` whose result is published returns (and has saved) a
product referencing at least one SKU — the post-generation re-fetch asserts
it, failing the transaction otherwise — and a failing `create` leaves the
store exactly as it was (rollback: neither the product nor any SKU is
persisted).  The hypothesis states that the id supply is fresh for the
products store. -/
theorem C10_create_published_has_sku (db : Db) (dto : ProductDto) (uid : Nat)
    (hfresh : ∀ q ∈ db.products, q.id ≠ db.nextId) :
    (∀ db' p, create db dto uid = .ok (db', p) → p.status = .published →
      1 ≤ p.skus.length ∧ p ∈ db'.products) ∧
    (∀ e, create db dto uid = .error e → runCreate db dto uid = db) := by
  constructor
  · intro db' p h hp
    unfold create at h
    cases hval : validateProduct dto with
    | error e => simp [hval, Bind.bind, Except.bind] at h
    | ok u =>
      have hfind1 :
          (db.products ++ [newProductDoc db dto uid]).find?
            (fun q => q.id = (newProductDoc db dto uid).id) =
            some (newProductDoc db dto uid) := by
        apply find?_append_singleton (newProductDoc db dto uid).id _ rfl
        intro q hq
        exact hfresh q hq
      cases hc : dto.collectionId with
      | none =>
        simp only [hval, hc, Bind.bind, Except.bind, Pure.pure, Except.pure] at h
        exact createSaved_published _ _ dto hfind1 db' p h hp
      | some cid =>
        cases hcv : validateCollectionExists db cid with
        | error e => simp [hval, hc, hcv, Bind.bind, Except.bind] at h
        | ok u2 =>
          simp only [hval, hc, hcv, Bind.bind, Except.bind, Pure.pure,
            Except.pure] at h
          exact createSaved_published _ _ dto hfind1 db' p h hp
  · intro e h
    unfold runCreate
    rw [h]

/-- The create DTO of the C10 witness: a published digital product with one
two-valued variant axis. -/
def dtoC10 : ProductDto := {
  title := some "Album", description := some "D", type := some .digital,
  fileUrl := some "file://a", status := some .published,
  collectionId := some 9, variants := some [⟨"color", ["red", "blue"]⟩] }

/-- The pre-state of the C10 witness: an empty store with one active
collection. -/
def dbC10 : Db :=
  { products := [], skus := [], collections := [⟨9, true⟩], nextId := 50 }

/-- The state `create dbC10 dtoC10 7` persists. -/
def prodC10 : ProductDoc :=
  { id := 50, userId := 7, title := "Album", description := some "D",
    type := .digital, status := .published, collectionId := some 9,
    fileUrl := some "file://a", variants := [⟨"color", ["red", "blue"]⟩],
    skus := [51, 52], purchasable := false }

def dbC10after : Db := {
  products := [prodC10]
  skus := [{ id := 51, productId := 50,
             variantCombination := [("color", "red")], price := 0,
             quantity := 0 },
           { id := 52, productId := 50,
             variantCombination := [("color", "blue")], price := 0,
             quantity := 0 }]
  collections := [⟨9, true⟩]
  nextId := 53 }

theorem C10_create_published_has_sku_witness :
    1 ≤ prodC10.skus.length ∧ prodC10 ∈ dbC10after.products :=
  (C10_create_published_has_sku dbC10 dtoC10 7 (by intro q hq; cases hq)).1
    dbC10after prodC10 (by decide) (by decide)

/-- The claim-side description of what a fully matching `updateSkus` batch
does to one stored SKU: the first patch with the same serialized combination
overwrites exactly its provided fields, and only SKUs of the targeted product
(the populated `currentSkus`) are touched. -/
def patchResult (currentSkus : List Sku) (patches : List SkuPatch) (t : Sku) : Sku :=
  match patches.find? (fun u => u.variantCombination == t.variantCombination) with
  | some u => if t ∈ currentSkus then overwriteSku t u else t
  | none => t

theorem patchResult_of_not_mem {cs : List Sku} {t : Sku}
    (h : t ∉ cs) (ps : List SkuPatch) : patchResult cs ps t = t := by
  unfold patchResult
  cases ps.find? (fun u => u.variantCombination == t.variantCombination) with
  | none => rfl
  | some u => exact if_neg h

theorem foldl_stepPatch_id (skuMap : List (Combo × Sku)) (x : Sku) :
    ∀ (ps : List SkuPatch),
      (∀ u ∈ ps, ∀ s, skuMap.lookup u.variantCombination = some s → s.id ≠ x.id) →
      ps.foldl (stepPatch skuMap) x = x
  | [], _ => rfl
  | u :: ps, h => by
    rw [List.foldl_cons]
    have hstep : stepPatch skuMap x u = x := by
      unfold stepPatch
      cases hl : skuMap.lookup u.variantCombination with
      | none => rfl
      | some s =>
        exact if_neg (fun he => h u (List.mem_cons_self u ps) s hl he.symm)
    rw [hstep]
    exact foldl_stepPatch_id skuMap x ps
      (fun w hw => h w (List.mem_cons_of_mem u hw))

theorem foldl_stepPatch_eq (cs store : List Sku)
    (ndc : (cs.map (fun s => s.variantCombination)).Nodup)
    (ndid : (store.map (fun s => s.id)).Nodup)
    (hsub : ∀ s ∈ cs, s ∈ store) :
    ∀ (patches : List SkuPatch),
      (patches.map (fun u => u.variantCombination)).Nodup →
      (∀ u ∈ patches, ∃ s ∈ cs, s.variantCombination = u.variantCombination) →
      ∀ t ∈ store,
        patches.foldl (stepPatch (buildSkuMap cs)) t = patchResult cs patches t
  | [], _, _, t, _ => rfl
  | u :: ps, ndp, hall, t, ht => by
    -- resolve the head patch to the current SKU it targets
    have hexu := hall u (List.mem_cons_self u ps)
    have hlook : ((buildSkuMap cs).lookup u.variantCombination).isSome := by
      apply buildSkuMap_lookup_isSome
      rcases hexu with ⟨s, hs, he⟩
      exact ⟨s, hs, he⟩
    rcases Option.isSome_iff_exists.mp hlook with ⟨su, hsu⟩
    have hsu2 := hsu
    rw [buildSkuMap_lookup] at hsu2
    have hsumem : su ∈ cs := List.mem_reverse.mp (List.mem_of_find?_eq_some hsu2)
    have hbequ := List.find?_some hsu2
    have hsuvc : su.variantCombination = u.variantCombination :=
      (eq_of_beq hbequ).symm
    have hnmem : u.variantCombination ∉ ps.map (fun w => w.variantCombination) := by
      have h := ndp
      simp only [List.map_cons, List.nodup_cons] at h
      exact h.1
    have hndps : (ps.map (fun w => w.variantCombination)).Nodup := by
      have h := ndp
      simp only [List.map_cons, List.nodup_cons] at h
      exact h.2
    have hallps : ∀ w ∈ ps, ∃ s ∈ cs, s.variantCombination = w.variantCombination :=
      fun w hw => hall w (List.mem_cons_of_mem u hw)
    rw [List.foldl_cons]
    have hstep : stepPatch (buildSkuMap cs) t u =
        if t.id = su.id then overwriteSku t u else t := by
      unfold stepPatch
      rw [hsu]
    by_cases hid : t.id = su.id
    · have hts : t = su :=
        List.inj_on_of_nodup_map ndid ht (hsub su hsumem) hid
      have htcs : t ∈ cs := hts ▸ hsumem
      have htvc : t.variantCombination = u.variantCombination := by
        rw [hts]; exact hsuvc
      rw [hstep, if_pos hid]
      have hleft : ps.foldl (stepPatch (buildSkuMap cs)) (overwriteSku t u) =
          overwriteSku t u := by
        apply foldl_stepPatch_id
        intro w hw s hls hsid
        have hls2 := hls
        rw [buildSkuMap_lookup] at hls2
        have hsmem : s ∈ cs := List.mem_reverse.mp (List.mem_of_find?_eq_some hls2)
        have hbeqw := List.find?_some hls2
        have hsvc : s.variantCombination = w.variantCombination :=
          (eq_of_beq hbeqw).symm
        have hst : s = t :=
          List.inj_on_of_nodup_map ndid (hsub s hsmem) ht hsid
        apply hnmem
        rw [show u.variantCombination = w.variantCombination by
          rw [← htvc, ← hst, hsvc]]
        exact List.mem_map_of_mem (fun w => w.variantCombination) hw
      rw [hleft]
      have hfind : (u :: ps).find?
          (fun w => w.variantCombination == t.variantCombination) = some u :=
        List.find?_cons_of_pos ps (by simp [htvc])
      unfold patchResult
      rw [hfind]
      exact (if_pos htcs).symm
    · rw [hstep, if_neg hid]
      rw [foldl_stepPatch_eq cs store ndc ndid hsub ps hndps hallps t ht]
      by_cases hvc : u.variantCombination = t.variantCombination
      · have htcs : t ∉ cs := by
          intro htc
          have hvceq : t.variantCombination = su.variantCombination := by
            rw [hsuvc]
            exact hvc.symm
          exact hid (congrArg Sku.id
            (List.inj_on_of_nodup_map ndc htc hsumem hvceq))
        rw [patchResult_of_not_mem htcs, patchResult_of_not_mem htcs]
      · have hfind : (u :: ps).find?
            (fun w => w.variantCombination == t.variantCombination) =
            ps.find? (fun w => w.variantCombination == t.variantCombination) :=
          List.find?_cons_of_neg ps (by simpa using hvc)
        unfold patchResult
        rw [hfind]

/-- A patch whose combination is mapping-equal to the `{color:red, size:S}`
SKU of `dbC6` but lists its keys in the other order. -/
def patchC7 : SkuPatch :=
  { variantCombination := [("size", "S"), ("color", "red")], price := some 9 }

/-- C7 counterexample: the patch's combination equals the stored SKU's
combination as a key/value mapping (same value under every key), yet
`updateSkus` — matching on the serialized form, which is key-order
sensitive — rejects the batch instead of updating the SKU. -/
theorem C7_counterexample :
    MappingEq patchC7.variantCombination [("color", "red"), ("size", "S")] ∧
    (∃ s ∈ dbC6.skus,
      s.variantCombination = [("color", "red"), ("size", "S")] ∧
      s.id ∈ prodC6.skus) ∧
    updateSkus dbC6 1 [patchC7] 7 = .error (.badRequest
      "SKU with variant combination \x7b\"size\":\"S\",\"color\":\"red\"\x7d not found in product") ∧
    runUpdateSkus dbC6 1 [patchC7] 7 = dbC6 := by
  refine ⟨?_, by decide, by decide, by decide⟩
  intro k
  by_cases h1 : k = "size"
  · subst h1; decide
  · by_cases h2 : k = "color"
    · subst h2; decide
    · have b1 : (k == "size") = false := by simpa using h1
      have b2 : (k == "color") = false := by simpa using h2
      simp [patchC7, List.lookup, b1, b2]

/-- C7 (amended): when every patch's combination matches an existing SKU of
the product under equality of the serialized combination (same keys, same
values, same key order), `updateSkus` succeeds and rewrites the SKU store
element-wise: a stored SKU of the product matched by a patch gets exactly the
patch's provided fields (price overwritten iff supplied, quantity overwritten
iff supplied) with every other field kept, and every other SKU is unchanged —
`patchResult` spells this out.  The Nodup hypotheses are store/batch
well-formedness: distinct ids, no duplicated combination among the product's
SKUs or among the patches. -/
theorem C7_updateSkus_matched (db : Db) (pid uid : Nat) (patches : List SkuPatch)
    (product : ProductDoc) (cs : List Sku)
    (hfind : db.products.find? (fun q => q.id = pid) = some product)
    (hown : product.userId = uid)
    (hcur : cs = product.skus.filterMap
      (fun sid => db.skus.find? (fun s => s.id = sid)))
    (hne : cs ≠ [])
    (ndc : (cs.map (fun s => s.variantCombination)).Nodup)
    (ndid : (db.skus.map (fun s => s.id)).Nodup)
    (ndp : (patches.map (fun u => u.variantCombination)).Nodup)
    (hall : ∀ u ∈ patches, ∃ s ∈ cs,
      s.variantCombination = u.variantCombination) :
    updateSkus db pid patches uid =
      .ok ({ db with skus := db.skus.map (patchResult cs patches) }, product) := by
  have hsub : ∀ s ∈ cs, s ∈ db.skus := by
    intro s hs
    rw [hcur] at hs
    rcases List.mem_filterMap.mp hs with ⟨sid, _, hfs⟩
    exact List.mem_of_find?_eq_some hfs
  unfold updateSkus
  simp only [hfind]
  rw [if_neg (by simp [hown])]
  rw [← hcur]
  rw [if_neg (by simpa using hne)]
  rw [processPatches_ok (buildSkuMap cs) patches db.skus
    (fun u hu => buildSkuMap_lookup_isSome cs u.variantCombination (hall u hu))]
  have hmap : db.skus.map (fun t => patches.foldl (stepPatch (buildSkuMap cs)) t) =
      db.skus.map (patchResult cs patches) :=
    List.map_congr_left
      (fun t ht => foldl_stepPatch_eq cs db.skus ndc ndid hsub patches ndp hall t ht)
  simp only [Bind.bind, Except.bind, hmap]
  rfl

theorem C7_updateSkus_matched_witness :
    updateSkus dbC6 1
      [{ variantCombination := [("color", "red"), ("size", "S")],
         price := some 30, quantity := some 100 },
       { variantCombination := [("color", "blue"), ("size", "M")],
         price := some 32 }] 7 =
      .ok ({ dbC6 with skus := dbC6.skus.map (patchResult
        (prodC6.skus.filterMap (fun sid => dbC6.skus.find? (fun s => s.id = sid)))
        [{ variantCombination := [("color", "red"), ("size", "S")],
           price := some 30, quantity := some 100 },
         { variantCombination := [("color", "blue"), ("size", "M")],
           price := some 32 }]) }, prodC6) :=
  C7_updateSkus_matched dbC6 1 7
    [{ variantCombination := [("color", "red"), ("size", "S")],
       price := some 30, quantity := some 100 },
     { variantCombination := [("color", "blue"), ("size", "M")],
       price := some 32 }]
    prodC6
    (prodC6.skus.filterMap (fun sid => dbC6.skus.find? (fun s => s.id = sid)))
    (by decide) rfl rfl (by decide) (by decide) (by decide) (by decide)
    (by decide)

section Scratch

example : generateVariantCombinations [] = [[]] := by decide

example :
    generateVariantCombinations
      [⟨"color", ["red", "blue"]⟩, ⟨"size", ["S", "M"]⟩] =
    [[("color", "red"), ("size", "S")], [("color", "red"), ("size", "M")],
     [("color", "blue"), ("size", "S")], [("color", "blue"), ("size", "M")]] := by
  decide

example :
    generateVariantCombinations [⟨"x", ["a", "a"]⟩] =
      [[("x", "a")], [("x", "a")]] := by decide

end Scratch
